import Mathlib

/-!
Verification of the tsuru kubernetes job provisioner.

Shallow embedding of `provision/kubernetes/job.go`: the job spec compiler
(`buildJobSpec`), the defaulting helper (`buildActiveDeadline`), the metadata
builder (`buildMetadata`), the manual-trigger naming (`getManualJobName` and
`TriggerCron`), the lifecycle operations (`CreateJob`, `UpdateJob`,
`DestroyJob`), the reconciler (`jobsToJobUnits`) and the event bridge
(`createJobEvent`), together with theorems about their behaviour.

Maps (Go `map[string]string`) are embedded as functions `String → Option
String`; Go slices as `List`; Go pointers that may be nil as `Option`;
fallible calls as `Except` or `Option` of an error.  External collaborators
(cluster client, resource-requirement resolver, identity provisioner) are
parameters: each operation takes the collaborator's outcome as input and
records the orchestrator calls it performs in a trace.
-/

namespace TsuruJob

/-- A name/value pair, as in tsuru's `Metadata.Labels` / `Metadata.Annotations`
entries (`types/app.MetadataItem`). -/
structure NameValue where
  name : String
  value : String
  deriving Repr, DecidableEq

/-- An environment variable, as in `apiv1.EnvVar` / `bindTypes.EnvVar`:
a name and a literal value. -/
structure EnvVar where
  name : String
  value : String
  deriving Repr, DecidableEq

/-- Custom metadata attached to a job (`job.Metadata`): custom labels and
custom annotations. -/
structure Metadata where
  labels : List NameValue
  annots : List NameValue
  deriving Repr, DecidableEq

/-- The container description inside a job spec
(`jobTypes.ContainerInfo`). -/
structure ContainerInfo where
  internalRegistryImage : String
  originalImageSrc : String
  command : List String
  deriving Repr, DecidableEq

/-- The domain job spec (`jobTypes.JobSpec`): scheduling knobs, the env
lists and the container.  Go `*int32`/`*int64` become `Option Int`. -/
structure JobSpecIn where
  parallelism : Option Int
  backoffLimit : Option Int
  completions : Option Int
  activeDeadlineSeconds : Option Int
  envs : List EnvVar
  serviceEnvs : List EnvVar
  container : ContainerInfo
  schedule : String
  manual : Bool
  deriving Repr, DecidableEq

/-- The domain job (`jobTypes.Job`): name, pool, metadata and spec. -/
structure Job where
  name : String
  pool : String
  metadata : Metadata
  spec : JobSpecIn
  deriving Repr, DecidableEq

/-- Resource requirements, the opaque result of the external
`resourceRequirements` resolver. -/
structure Requirements where
  tag : String
  deriving Repr, DecidableEq

/-- A string-keyed map, the embedding of Go `map[string]string`. -/
def StrMap : Type := String → Option String

/-- Map update `m[k] = v` on a Go `map[string]string`. -/
def mapInsert (m : StrMap) (k v : String) : StrMap :=
  fun q => if q = k then some v else m q

/-- The empty Go map. -/
def mapEmpty : StrMap := fun _ => none

/-- Embedding of `strings.ReplaceAll(v, "$", "$$")` at the character level: every literal
`$` is doubled, every other character is kept. -/
def escapeChars : List Char → List Char
  | [] => []
  | c :: cs => if c = '$' then '$' :: '$' :: escapeChars cs else c :: escapeChars cs

/-- Embedding of `strings.ReplaceAll(v, "$", "$$")` on strings. -/
def escapeDollar (v : String) : String :=
  ⟨escapeChars v.data⟩

/-- Embedding of `buildActiveDeadline` (job.go:344-350): nil or zero becomes the default
of 60*60 seconds, anything else passes through. -/
def buildActiveDeadline (activeDeadlineSeconds : Option Int) : Int :=
  let defaultActiveDeadline : Int := 60 * 60
  match activeDeadlineSeconds with
  | none => defaultActiveDeadline
  | some v => if v = 0 then defaultActiveDeadline else v

/-- The env list built by `buildJobSpec` (job.go:35-49): the user-defined
envs, then the service envs, each value `$`-escaped. -/
def buildEnvs (jSpec : JobSpecIn) : List EnvVar :=
  jSpec.envs.map (fun env => { name := env.name, value := escapeDollar env.value })
    ++ jSpec.serviceEnvs.map (fun env => { name := env.name, value := escapeDollar env.value })

/-- The image selection in `buildJobSpec` (job.go:51-54): prefer the internal
registry image, fall back to the original source. -/
def imageURLOf (c : ContainerInfo) : String :=
  if c.internalRegistryImage = "" then c.originalImageSrc else c.internalRegistryImage

/-- A compiled container (`apiv1.Container`), the parts `buildJobSpec`
sets. -/
structure Container where
  name : String
  image : String
  command : List String
  resources : Requirements
  env : List EnvVar
  deriving Repr, DecidableEq

/-- A compiled pod template (`apiv1.PodTemplateSpec`). -/
structure PodTemplateSpec where
  labels : StrMap
  annots : StrMap
  restartPolicy : String
  containers : List Container
  serviceAccountName : String

/-- A compiled job spec (`batchv1.JobSpec`). -/
structure JobSpecOut where
  parallelism : Option Int
  backoffLimit : Option Int
  completions : Option Int
  activeDeadlineSeconds : Int
  ttlSecondsAfterFinished : Int
  template : PodTemplateSpec

/-- The name of the job's service account, computed by the external helper
`serviceAccountNameForJob`; kept opaque as a function of the job name. -/
def serviceAccountNameForJob (j : Job) : String :=
  "tsuru-" ++ j.name

/-- Embedding of `buildJobSpec` (job.go:27-82).  The external `resourceRequirements`
resolver's outcome is the `requirements` parameter; the only error path is
its failure. -/
def buildJobSpec (job : Job) (requirements : Except String Requirements)
    (labels annots : StrMap) : Except String JobSpecOut :=
  let jSpec := job.spec
  match requirements with
  | .error e => .error e
  | .ok reqs =>
    .ok {
      parallelism := jSpec.parallelism
      backoffLimit := jSpec.backoffLimit
      completions := jSpec.completions
      activeDeadlineSeconds := buildActiveDeadline jSpec.activeDeadlineSeconds
      ttlSecondsAfterFinished := 86400
      template := {
        labels := labels
        annots := annots
        restartPolicy := "OnFailure"
        containers := [{
          name := "job"
          image := imageURLOf jSpec.container
          command := jSpec.container.command
          resources := reqs
          env := buildEnvs jSpec }]
        serviceAccountName := serviceAccountNameForJob job } }

/-- The env list of the single container of a compiled spec. -/
def specEnv (s : JobSpecOut) : List EnvVar :=
  (s.template.containers.map Container.env).flatten

/-- The label-merge loop of `buildMetadata` (job.go:110-116): fold the custom
labels over the platform label map, skipping any key already present in the
map being built (so platform keys, and earlier custom keys, win). -/
def mergeLabels (jobLabels : StrMap) (custom : List NameValue) : StrMap :=
  custom.foldl
    (fun m label =>
      if (m label.name).isSome then m else mapInsert m label.name label.value)
    jobLabels

/-- The annotation loop of `buildMetadata` (job.go:117-120): copy every
custom annotation into a fresh map, without collision checking (a later
entry with the same key overwrites an earlier one, Go map semantics). -/
def buildAnnots (custom : List NameValue) : StrMap :=
  custom.foldl (fun m a => mapInsert m a.name a.value) mapEmpty

/-- Embedding of `buildMetadata` (job.go:107-122).  The platform-derived label map
(`provision.JobLabels(ctx, job).ToLabels()`, an external helper) is the
`jobLabels` parameter. -/
def buildMetadata (jobLabels : StrMap) (job : Job) : StrMap × StrMap :=
  (mergeLabels jobLabels job.metadata.labels, buildAnnots job.metadata.annots)

/-- Embedding of `getManualJobName` (job.go:176-179) with the wall clock made explicit:
`fmt.Sprintf("%s-manual-job-%d", job, unixSeconds/60)`.  Go's `int64`
division truncates toward zero, as Lean's `Int` division does. -/
def getManualJobName (job : String) (unixSeconds : Int) : String :=
  job ++ "-manual-job-" ++ toString (unixSeconds / 60)

/-- Modelled from the spec: the cluster client's create call for executions
(`client.BatchV1().Jobs(ns).Create`, external collaborator, §6) enforces
name uniqueness — a duplicate name is rejected, otherwise the execution is
added.  The state is the set of existing execution names. -/
def clusterCreateExecution (existing : List String) (name : String) :
    Except String (List String) :=
  if name ∈ existing then .error "already exists" else .ok (name :: existing)

/-- The tail of `TriggerCron` (job.go:166-173) relevant to naming: compute
the manual job name for the fetched schedule and submit the one-off
execution to the cluster, whose uniqueness check decides duplicates. -/
def triggerCron (existing : List String) (scheduleName : String)
    (unixSeconds : Int) : Except String (List String) :=
  clusterCreateExecution existing (getManualJobName scheduleName unixSeconds)

/-! ## Reconciler (`JobUnits` / `jobsToJobUnits`) -/

/-- The platform unit statuses this file uses (`provision.StatusError`,
`provision.StatusSucceeded`, `provision.StatusStarted`). -/
inductive UnitStatus where
  | error
  | succeeded
  | started
  deriving Repr, DecidableEq

/-- The status counters of a k8s job (`batchv1.JobStatus.Failed` /
`Succeeded`, non-negative counters). -/
structure K8sJobStatus where
  failed : Nat
  succeeded : Nat
  deriving Repr, DecidableEq

/-- A k8s job execution, the fields `jobsToJobUnits` reads. -/
structure K8sJob where
  name : String
  status : K8sJobStatus
  creationTimestamp : Int
  deriving Repr, DecidableEq

/-- A pod's container statuses reduced to their restart counts. -/
structure Pod where
  containerRestarts : List Nat
  deriving Repr, DecidableEq

/-- Modelled from the spec: `containersRestarts` (external helper, §4.5
"sum each pod's container restart counts") sums the restart counts of a
pod's container statuses. -/
def containersRestarts (p : Pod) : Nat :=
  p.containerRestarts.sum

/-- A platform unit (`provision.Unit`), the fields `jobsToJobUnits` sets. -/
structure JobUnit where
  id : String
  name : String
  status : UnitStatus
  restarts : Nat
  createdAt : Int
  deriving Repr, DecidableEq

/-- The status switch of `jobsToJobUnits` (job.go:270-277): Error if the
failed counter is positive, else Succeeded if the succeeded counter is
positive, else Started. -/
def jobUnitStatus (s : K8sJobStatus) : UnitStatus :=
  if s.failed > 0 then .error
  else if s.succeeded > 0 then .succeeded
  else .started

/-- Embedding of `jobsToJobUnits` (job.go:255-289): for each k8s job, list its pods via
the (external) pod-listing call `podsFor`, sum the restarts, classify the
status, and emit a unit; any pod-listing failure aborts the whole call. -/
def jobsToJobUnits (podsFor : K8sJob → Except String (List Pod)) :
    List K8sJob → Except String (List JobUnit)
  | [] => .ok []
  | k8sJob :: rest =>
    match podsFor k8sJob with
    | .error e => .error e
    | .ok pods =>
      match jobsToJobUnits podsFor rest with
      | .error e => .error e
      | .ok units =>
        .ok ({ id := k8sJob.name
               name := k8sJob.name
               status := jobUnitStatus k8sJob.status
               restarts := pods.foldl (fun acc p => acc + containersRestarts p) 0
               createdAt := k8sJob.creationTimestamp } :: units)

/-! ## Event bridge (`createJobEvent`) -/

/-- An owner reference of a k8s job (`metav1.OwnerReference`), the fields
`createJobEvent` reads. -/
structure OwnerReference where
  name : String
  kind : String
  deriving Repr, DecidableEq

/-- The metadata of the k8s job execution an event refers to. -/
structure K8sJobMeta where
  name : String
  ownerReferences : List OwnerReference
  deriving Repr, DecidableEq

/-- A k8s lifecycle event (`apiv1.Event`), the fields `createJobEvent`
reads. -/
structure K8sEvent where
  reason : String
  message : String
  eventType : String
  deriving Repr, DecidableEq

/-- The two permission schemes `createJobEvent` selects between
(`permission.PermJobRun`, `permission.PermJobCreate`). -/
inductive PermKind where
  | jobRun
  | jobCreate
  deriving Repr, DecidableEq

/-- The audit event assembled by `createJobEvent`: kind, target value
(the real owner), the recorded error, and the custom-data bag. -/
structure AuditEvent where
  kind : PermKind
  target : String
  evtErr : Option String
  jobName : String
  jobController : String
  eventReason : String
  eventMessage : String
  deriving Repr, DecidableEq

/-- The real-owner scan of `createJobEvent` (job.go:306-311): start from the
execution's own name and walk the owner references, taking the name of
each reference of kind "CronJob" (the last such reference wins). -/
def realJobOwner (jobName : String) (refs : List OwnerReference) : String :=
  refs.foldl (fun acc owner => if owner.kind = "CronJob" then owner.name else acc)
    jobName

/-- The reason switch of `createJobEvent` (job.go:294-304): the selected
permission kind and recorded error, or `none` for the ignored default
arm. -/
def dispatchReason (evt : K8sEvent) : Option (PermKind × Option String) :=
  if evt.reason = "Completed" then some (.jobRun, none)
  else if evt.reason = "BackoffLimitExceeded" then
    some (.jobRun, some ("job failed: " ++ evt.message))
  else if evt.reason = "SuccessfulCreate" then some (.jobCreate, none)
  else none

/-- The audit event `createJobEvent` assembles (job.go:306-331) once the
reason switch has selected a kind and error: target and controller are the
real owner. -/
def mkAuditEvent (job : K8sJobMeta) (evt : K8sEvent) (kind : PermKind)
    (evtErr : Option String) : AuditEvent :=
  let owner := realJobOwner job.name job.ownerReferences
  { kind := kind
    target := owner
    evtErr := evtErr
    jobName := job.name
    jobController := owner
    eventReason := evt.reason
    eventMessage := evt.message }

/-- Embedding of `createJobEvent` (job.go:291-332): dispatch on the event reason —
Completed maps to a Run audit event with no error, BackoffLimitExceeded to
a Run audit event recording "job failed: <message>", SuccessfulCreate to a
Create audit event with no error, and any other reason is ignored.  The
audit target is the real owner. -/
def createJobEvent (job : K8sJobMeta) (evt : K8sEvent) : Option AuditEvent :=
  (dispatchReason evt).map (fun ke => mkAuditEvent job evt ke.1 ke.2)

/-! ## Lifecycle operations with an orchestrator-call trace

`CreateJob`, `UpdateJob` and `DestroyJob` interleave pure computation with
calls to external collaborators.  Each collaborator outcome is a parameter,
and every orchestrator-side call the operation performs is recorded, in
order, in a trace, so that "no orchestrator call was made" is the
statement that the trace is empty. -/

/-- The orchestrator-side calls the lifecycle operations can make. -/
inductive OrchCall where
  | ensureServiceAccount
  | createCronJob
  | updateCronJob
  | deleteServiceAccount
  | deleteCronJob
  deriving Repr, DecidableEq

/-- The collaborator outcomes `CreateJob`/`UpdateJob` consume:
pool-to-cluster resolution, the identity provisioner
(`ensureServiceAccountForJob`, an orchestrator-side call ensuring the
job's service account exists in the cluster namespace), the
resource-requirement resolver, and the cronjob create/update call. -/
structure LifecycleEnv where
  clusterForPool : Except String Unit
  ensureServiceAccount : Option String
  requirements : Except String Requirements
  jobLabels : StrMap
  cronJobWrite : Except String String

/-- Embedding of `CreateJob` (job.go:124-138): resolve the cluster, ensure the service
account (recorded as an orchestrator call), build metadata, compile the
spec, and only then create the cronjob.  Returns the result and the trace
of orchestrator calls made. -/
def createJob (env : LifecycleEnv) (job : Job) :
    Except String String × List OrchCall :=
  match env.clusterForPool with
  | .error e => (.error e, [])
  | .ok _ =>
    match env.ensureServiceAccount with
    | some e => (.error e, [.ensureServiceAccount])
    | none =>
      let (jobLabels, jobAnnots) := buildMetadata env.jobLabels job
      match buildJobSpec job env.requirements jobLabels jobAnnots with
      | .error e => (.error e, [.ensureServiceAccount])
      | .ok _ =>
        (env.cronJobWrite, [.ensureServiceAccount, .createCronJob])

/-- Embedding of `UpdateJob` (job.go:181-211): the same pipeline as `CreateJob`, ending
in a cronjob update instead of a create. -/
def updateJob (env : LifecycleEnv) (job : Job) :
    Except String Unit × List OrchCall :=
  match env.clusterForPool with
  | .error e => (.error e, [])
  | .ok _ =>
    match env.ensureServiceAccount with
    | some e => (.error e, [.ensureServiceAccount])
    | none =>
      let (jobLabels, jobAnnots) := buildMetadata env.jobLabels job
      match buildJobSpec job env.requirements jobLabels jobAnnots with
      | .error e => (.error e, [.ensureServiceAccount])
      | .ok _ =>
        (env.cronJobWrite.map (fun _ => ()), [.ensureServiceAccount, .updateCronJob])

/-- An error returned by a cluster delete call, with the `IsNotFound`
classifier (`k8sErrors.IsNotFound`). -/
structure K8sError where
  notFound : Bool
  msg : String
  deriving Repr, DecidableEq

/-- Embedding of `DestroyJob` (job.go:231-241): resolve the cluster, delete the service
account — tolerating not-found — and then delete the cronjob.  `none`
outcomes mean success; the trace records the delete calls made. -/
def destroyJob (clusterForPool : Except String Unit)
    (saDelete : Option K8sError) (cronDelete : Option K8sError) :
    Option K8sError × List OrchCall :=
  match clusterForPool with
  | .error e => (some { notFound := false, msg := e }, [])
  | .ok _ =>
    match saDelete with
    | some e =>
      if e.notFound then (cronDelete, [.deleteServiceAccount, .deleteCronJob])
      else (some e, [.deleteServiceAccount])
    | none => (cronDelete, [.deleteServiceAccount, .deleteCronJob])

/-- A concrete job used by witness theorems. -/
def jWit : Job :=
  { name := "mailer"
    pool := "p1"
    metadata := { labels := [], annots := [] }
    spec :=
      { parallelism := none
        backoffLimit := none
        completions := none
        activeDeadlineSeconds := none
        envs := [{ name := "A", value := "x$y" }]
        serviceEnvs := [{ name := "DB", value := "plain" }]
        container :=
          { internalRegistryImage := "registry/mailer:v1"
            originalImageSrc := "mailer:v1"
            command := ["run"] }
        schedule := "*/5 * * * *"
        manual := false } }

/-! ## Theorems -/

/-- C2: compiling a job's active deadline defaults nil and 0 to 3600
seconds, passes any other value through unchanged, is idempotent
(re-defaulting an already-defaulted value changes nothing), and the
whole spec compilation is deterministic. -/
theorem buildActiveDeadline_defaulting (x : Int) (hx : x ≠ 0)
    (o : Option Int) (job : Job) (req : Except String Requirements)
    (labels annots : StrMap) :
    buildActiveDeadline none = 3600 ∧
    buildActiveDeadline (some 0) = 3600 ∧
    buildActiveDeadline (some x) = x ∧
    buildActiveDeadline (some (buildActiveDeadline o)) = buildActiveDeadline o ∧
    buildJobSpec job req labels annots = buildJobSpec job req labels annots := by
  refine ⟨rfl, rfl, by simp [buildActiveDeadline, hx], ?_, rfl⟩
  match o with
  | none => rfl
  | some v =>
    by_cases hv : v = 0
    · subst hv; rfl
    · simp [buildActiveDeadline, hv]

/-- Witness for C2 at concrete inputs. -/
theorem buildActiveDeadline_defaulting_witness :
    buildActiveDeadline none = 3600 ∧
    buildActiveDeadline (some 0) = 3600 ∧
    buildActiveDeadline (some 42) = 42 ∧
    buildActiveDeadline (some (buildActiveDeadline (some 5))) =
      buildActiveDeadline (some 5) ∧
    buildJobSpec jWit (.ok ⟨"r"⟩) mapEmpty mapEmpty =
      buildJobSpec jWit (.ok ⟨"r"⟩) mapEmpty mapEmpty :=
  buildActiveDeadline_defaulting 42 (by decide) (some 5) jWit (.ok ⟨"r"⟩)
    mapEmpty mapEmpty

/-- C7: `DestroyJob` treats a not-found error from the service-account
delete as success — the result is whatever the cronjob delete returns and
both delete calls appear in the trace — while any other service-account
delete error is returned with the cronjob delete never attempted. -/
theorem destroyJob_identity_tolerance (cron : Option K8sError) (e : K8sError) :
    (e.notFound = true →
      destroyJob (.ok ()) (some e) cron =
        (cron, [.deleteServiceAccount, .deleteCronJob])) ∧
    (e.notFound = false →
      destroyJob (.ok ()) (some e) cron = (some e, [.deleteServiceAccount])) ∧
    (e.notFound = false →
      OrchCall.deleteCronJob ∉ (destroyJob (.ok ()) (some e) cron).2) := by
  refine ⟨fun h => by simp [destroyJob, h], fun h => by simp [destroyJob, h],
    fun h => by simp [destroyJob, h]⟩

/-- Witness for C7 at concrete inputs. -/
theorem destroyJob_identity_tolerance_witness :
    destroyJob (.ok ()) (some { notFound := true, msg := "sa gone" }) none =
      (none, [.deleteServiceAccount, .deleteCronJob]) ∧
    destroyJob (.ok ()) (some { notFound := false, msg := "boom" }) none =
      (some { notFound := false, msg := "boom" }, [.deleteServiceAccount]) :=
  ⟨(destroyJob_identity_tolerance none { notFound := true, msg := "sa gone" }).1 rfl,
   (destroyJob_identity_tolerance none { notFound := false, msg := "boom" }).2.1 rfl⟩

/-- C9: the event bridge dispatches exactly by reason — "Completed" yields
a Run audit event with no error, "BackoffLimitExceeded" a Run audit event
recording "job failed: <message>", "SuccessfulCreate" a Create audit event
with no error, and any other reason yields no audit event. -/
theorem createJobEvent_dispatch (job : K8sJobMeta) (evt : K8sEvent) :
    (evt.reason = "Completed" →
      ∃ a, createJobEvent job evt = some a ∧ a.kind = .jobRun ∧ a.evtErr = none) ∧
    (evt.reason = "BackoffLimitExceeded" →
      ∃ a, createJobEvent job evt = some a ∧ a.kind = .jobRun ∧
        a.evtErr = some ("job failed: " ++ evt.message)) ∧
    (evt.reason = "SuccessfulCreate" →
      ∃ a, createJobEvent job evt = some a ∧ a.kind = .jobCreate ∧ a.evtErr = none) ∧
    (evt.reason ≠ "Completed" → evt.reason ≠ "BackoffLimitExceeded" →
      evt.reason ≠ "SuccessfulCreate" → createJobEvent job evt = none) := by
  refine ⟨fun h => ?_, fun h => ?_, fun h => ?_, fun h1 h2 h3 => ?_⟩
  · have hd : dispatchReason evt = some (.jobRun, none) := by
      simp [dispatchReason, h]
    exact ⟨mkAuditEvent job evt .jobRun none, by simp [createJobEvent, hd], rfl, rfl⟩
  · have hd : dispatchReason evt =
        some (.jobRun, some ("job failed: " ++ evt.message)) := by
      simp [dispatchReason, h]
    exact ⟨mkAuditEvent job evt .jobRun (some ("job failed: " ++ evt.message)),
      by simp [createJobEvent, hd], rfl, rfl⟩
  · have hd : dispatchReason evt = some (.jobCreate, none) := by
      simp [dispatchReason, h]
    exact ⟨mkAuditEvent job evt .jobCreate none, by simp [createJobEvent, hd], rfl, rfl⟩
  · simp [createJobEvent, dispatchReason, h1, h2, h3]

/-- Witness for C9 at concrete inputs: one handled reason and one ignored
reason. -/
theorem createJobEvent_dispatch_witness :
    (∃ a, createJobEvent { name := "exec-1", ownerReferences := [] }
        { reason := "BackoffLimitExceeded", message := "oom", eventType := "Warning" } =
          some a ∧ a.kind = .jobRun ∧ a.evtErr = some ("job failed: " ++ "oom")) ∧
    createJobEvent { name := "exec-1", ownerReferences := [] }
      { reason := "Resync", message := "", eventType := "Normal" } = none :=
  ⟨(createJobEvent_dispatch { name := "exec-1", ownerReferences := [] }
      { reason := "BackoffLimitExceeded", message := "oom", eventType := "Warning" }).2.1
      rfl,
   (createJobEvent_dispatch { name := "exec-1", ownerReferences := [] }
      { reason := "Resync", message := "", eventType := "Normal" }).2.2.2
      (by decide) (by decide) (by decide)⟩

theorem realJobOwner_cons (d : String) (o : OwnerReference) (rest : List OwnerReference) :
    realJobOwner d (o :: rest) =
      realJobOwner (if o.kind = "CronJob" then o.name else d) rest := rfl

theorem realJobOwner_of_no_cronjob (d : String) (refs : List OwnerReference)
    (h : ∀ o ∈ refs, o.kind ≠ "CronJob") : realJobOwner d refs = d := by
  induction refs generalizing d with
  | nil => rfl
  | cons o rest ih =>
    rw [realJobOwner_cons, if_neg (h o (by simp))]
    exact ih d (fun o' ho' => h o' (by simp [ho']))

theorem realJobOwner_of_cronjob (d : String) (refs : List OwnerReference)
    (h : ∃ o ∈ refs, o.kind = "CronJob") :
    ∃ o ∈ refs, o.kind = "CronJob" ∧ realJobOwner d refs = o.name := by
  induction refs generalizing d with
  | nil => simp at h
  | cons o rest ih =>
    by_cases hex : ∃ o' ∈ rest, o'.kind = "CronJob"
    · obtain ⟨o', ho', hk', heq⟩ := ih (if o.kind = "CronJob" then o.name else d) hex
      exact ⟨o', by simp [ho'], hk', by rw [realJobOwner_cons, heq]⟩
    · have hrest : ∀ o' ∈ rest, o'.kind ≠ "CronJob" := by
        intro o' ho'
        exact fun hk => hex ⟨o', ho', hk⟩
      have hok : o.kind = "CronJob" := by
        obtain ⟨w, hw, hwk⟩ := h
        rcases List.mem_cons.1 hw with hw | hw
        · exact hw ▸ hwk
        · exact absurd hwk (hrest w hw)
      refine ⟨o, by simp, hok, ?_⟩
      rw [realJobOwner_cons, if_pos hok]
      exact realJobOwner_of_no_cronjob o.name rest hrest

theorem createJobEvent_target_eq (job : K8sJobMeta) (evt : K8sEvent)
    (a : AuditEvent) (h : createJobEvent job evt = some a) :
    a.target = realJobOwner job.name job.ownerReferences := by
  unfold createJobEvent at h
  rcases Option.map_eq_some'.1 h with ⟨ke, _, ha⟩
  rw [← ha]
  rfl

/-- C8: for every event the bridge handles, the audit target is the name
of an owner reference of kind "CronJob" when the execution has one
(the last such reference), and the execution's own name otherwise. -/
theorem createJobEvent_real_owner (job : K8sJobMeta) (evt : K8sEvent)
    (a : AuditEvent) (h : createJobEvent job evt = some a) :
    ((∃ o ∈ job.ownerReferences, o.kind = "CronJob") →
      ∃ o ∈ job.ownerReferences, o.kind = "CronJob" ∧ a.target = o.name) ∧
    ((∀ o ∈ job.ownerReferences, o.kind ≠ "CronJob") → a.target = job.name) := by
  have ht := createJobEvent_target_eq job evt a h
  constructor
  · intro hex
    obtain ⟨o, ho, hk, heq⟩ := realJobOwner_of_cronjob job.name job.ownerReferences hex
    exact ⟨o, ho, hk, ht.trans heq⟩
  · intro hall
    exact ht.trans (realJobOwner_of_no_cronjob job.name job.ownerReferences hall)

/-- Witness for C8 at a concrete execution owned by a CronJob. -/
theorem createJobEvent_real_owner_witness :
    ∃ o ∈ [({ name := "sched", kind := "CronJob" } : OwnerReference)],
      o.kind = "CronJob" ∧
        (AuditEvent.target
          { kind := .jobRun, target := "sched", evtErr := none,
            jobName := "exec-1", jobController := "sched",
            eventReason := "Completed", eventMessage := "" }) = o.name :=
  (createJobEvent_real_owner
      { name := "exec-1", ownerReferences := [{ name := "sched", kind := "CronJob" }] }
      { reason := "Completed", message := "", eventType := "Normal" }
      { kind := .jobRun, target := "sched", evtErr := none,
        jobName := "exec-1", jobController := "sched",
        eventReason := "Completed", eventMessage := "" }
      (by decide)).1
    ⟨{ name := "sched", kind := "CronJob" }, by simp, rfl⟩

/-- C5: the manual execution name is the schedule name, the literal
"-manual-job-" and the Unix time integer-divided by 60; triggers at times
120 and 121 share one name — so with the first execution present the
second submission is rejected as a duplicate — while a trigger at time
180 gets a distinct name and is accepted. -/
theorem manualJobName_minute_window (s : String) :
    (∀ t : Int, getManualJobName s t = s ++ "-manual-job-" ++ toString (t / 60)) ∧
    getManualJobName s 120 = getManualJobName s 121 ∧
    getManualJobName s 120 ≠ getManualJobName s 180 ∧
    triggerCron [getManualJobName s 120] s 121 = .error "already exists" ∧
    triggerCron [getManualJobName s 120] s 180 =
      .ok [getManualJobName s 180, getManualJobName s 120] := by
  have h120 : getManualJobName s 120 = s ++ "-manual-job-" ++ "2" := rfl
  have h121 : getManualJobName s 121 = s ++ "-manual-job-" ++ "2" := rfl
  have h180 : getManualJobName s 180 = s ++ "-manual-job-" ++ "3" := rfl
  have heq : getManualJobName s 120 = getManualJobName s 121 := h121 ▸ h120
  have hne : getManualJobName s 120 ≠ getManualJobName s 180 := by
    rw [h120, h180]
    intro hc
    have hd := congrArg String.data hc
    rw [String.data_append, String.data_append, String.data_append,
      String.data_append] at hd
    have h2 := List.append_cancel_left hd
    exact absurd h2 (by decide)
  refine ⟨fun t => rfl, heq, hne, ?_, ?_⟩
  · have hmem : getManualJobName s 121 ∈ [getManualJobName s 120] := by
      simp [← heq]
    simp only [triggerCron, clusterCreateExecution, if_pos hmem]
  · have hmem : getManualJobName s 180 ∉ [getManualJobName s 120] := by
      simp only [List.mem_singleton]
      exact fun h => hne h.symm
    simp only [triggerCron, clusterCreateExecution, if_neg hmem]

/-- Witness for C5 at the concrete schedule name "foo". -/
theorem manualJobName_minute_window_witness :
    getManualJobName "foo" 120 = getManualJobName "foo" 121 ∧
    getManualJobName "foo" 120 ≠ getManualJobName "foo" 180 :=
  ⟨(manualJobName_minute_window "foo").2.1, (manualJobName_minute_window "foo").2.2.1⟩

theorem escapeChars_count (l : List Char) :
    (escapeChars l).count '$' = 2 * l.count '$' := by
  induction l with
  | nil => rfl
  | cons c cs ih =>
    by_cases hc : c = '$'
    · subst hc
      simp [escapeChars, List.count_cons, ih]
      ring
    · simp [escapeChars, hc, List.count_cons, ih]

theorem escapeChars_of_no_dollar (l : List Char) (h : '$' ∉ l) :
    escapeChars l = l := by
  induction l with
  | nil => rfl
  | cons c cs ih =>
    have hc : c ≠ '$' := fun hc => h (hc ▸ List.mem_cons_self c cs)
    rw [escapeChars, if_neg hc, ih (fun hm => h (List.mem_cons_of_mem c hm))]

theorem escapeDollar_data (v : String) :
    (escapeDollar v).data = escapeChars v.data := rfl

theorem escapeDollar_of_no_dollar (v : String) (h : '$' ∉ v.data) :
    escapeDollar v = v := by
  cases v with
  | mk data => exact congrArg String.mk (escapeChars_of_no_dollar data h)

theorem buildJobSpec_ok_env (job : Job) (req : Except String Requirements)
    (labels annots : StrMap) (spec : JobSpecOut)
    (h : buildJobSpec job req labels annots = .ok spec) :
    specEnv spec = buildEnvs job.spec := by
  cases req with
  | error e => exact absurd h (by simp [buildJobSpec])
  | ok reqs =>
    rw [buildJobSpec, Except.ok.injEq] at h
    rw [← h]
    simp [specEnv]

/-- C3: every environment variable of a compiled job spec — user-defined
or service-injected — carries the `$`-escaped form of its source value:
the count of `$` characters is doubled, and a value without `$` is
unchanged. -/
theorem buildJobSpec_env_escaping (job : Job) (req : Except String Requirements)
    (labels annots : StrMap) (spec : JobSpecOut)
    (h : buildJobSpec job req labels annots = .ok spec)
    (e : EnvVar) (he : e ∈ specEnv spec) :
    ∃ src ∈ job.spec.envs ++ job.spec.serviceEnvs,
      e.name = src.name ∧
      e.value = escapeDollar src.value ∧
      e.value.data.count '$' = 2 * src.value.data.count '$' ∧
      ('$' ∉ src.value.data → e.value = src.value) := by
  rw [buildJobSpec_ok_env job req labels annots spec h] at he
  rw [buildEnvs, List.mem_append] at he
  rcases he with he | he <;> rcases List.mem_map.1 he with ⟨src, hsrc, hmk⟩
  · refine ⟨src, List.mem_append.2 (Or.inl hsrc), ?_, ?_, ?_, ?_⟩
    · rw [← hmk]
    · rw [← hmk]
    · rw [← hmk]
      exact escapeChars_count src.value.data
    · rw [← hmk]
      exact fun hnd => escapeDollar_of_no_dollar src.value hnd
  · refine ⟨src, List.mem_append.2 (Or.inr hsrc), ?_, ?_, ?_, ?_⟩
    · rw [← hmk]
    · rw [← hmk]
    · rw [← hmk]
      exact escapeChars_count src.value.data
    · rw [← hmk]
      exact fun hnd => escapeDollar_of_no_dollar src.value hnd

/-- Witness for C3 on a concrete job: the user env value "x$y" compiles to
"x$$y" and the service env value "plain" is unchanged. -/
theorem buildJobSpec_env_escaping_witness :
    ∃ spec, buildJobSpec jWit (.ok ⟨"r"⟩) mapEmpty mapEmpty = .ok spec ∧
      ∃ e ∈ specEnv spec,
        ∃ src ∈ jWit.spec.envs ++ jWit.spec.serviceEnvs,
          e.name = src.name ∧ e.value = escapeDollar src.value ∧
          e.value.data.count '$' = 2 * src.value.data.count '$' ∧
          ('$' ∉ src.value.data → e.value = src.value) := by
  refine ⟨_, rfl, { name := "A", value := "x$$y" }, by decide, ?_⟩
  exact buildJobSpec_env_escaping jWit (.ok ⟨"r"⟩) mapEmpty mapEmpty _ rfl
    { name := "A", value := "x$$y" } (by decide)

/-- C10: the compiled container env list is exactly the user-defined
variables followed by the service-injected variables, each group keeping
its input order (values `$`-escaped, names untouched). -/
theorem buildJobSpec_env_order (job : Job) (req : Except String Requirements)
    (labels annots : StrMap) (spec : JobSpecOut)
    (h : buildJobSpec job req labels annots = .ok spec) :
    specEnv spec =
      job.spec.envs.map (fun env => { name := env.name, value := escapeDollar env.value })
        ++ job.spec.serviceEnvs.map
            (fun env => { name := env.name, value := escapeDollar env.value }) ∧
    (specEnv spec).map EnvVar.name =
      (job.spec.envs ++ job.spec.serviceEnvs).map EnvVar.name := by
  have hb := buildJobSpec_ok_env job req labels annots spec h
  refine ⟨hb, ?_⟩
  rw [hb, buildEnvs]
  simp [Function.comp_def]

/-- Witness for C10 on a concrete job. -/
theorem buildJobSpec_env_order_witness :
    ∃ spec, buildJobSpec jWit (.ok ⟨"r"⟩) mapEmpty mapEmpty = .ok spec ∧
      (specEnv spec).map EnvVar.name =
        (jWit.spec.envs ++ jWit.spec.serviceEnvs).map EnvVar.name :=
  ⟨_, rfl,
    (buildJobSpec_env_order jWit (.ok ⟨"r"⟩) mapEmpty mapEmpty _ rfl).2⟩

theorem mergeLabels_cons (m : StrMap) (l : NameValue) (rest : List NameValue) :
    mergeLabels m (l :: rest) =
      mergeLabels (if (m l.name).isSome then m else mapInsert m l.name l.value)
        rest := rfl

theorem mergeLabels_apply (jobLabels : StrMap) (custom : List NameValue)
    (k : String) :
    mergeLabels jobLabels custom k =
      match jobLabels k with
      | some v => some v
      | none => (custom.find? (fun l => l.name == k)).map NameValue.value := by
  induction custom generalizing jobLabels with
  | nil =>
    cases h : jobLabels k <;> simp [mergeLabels, h]
  | cons l rest ih =>
    rw [mergeLabels_cons]
    by_cases hm : (jobLabels l.name).isSome
    · rw [if_pos hm, ih]
      cases hk : jobLabels k with
      | some v => rfl
      | none =>
        have hne : (l.name == k) = false := by
          rw [beq_eq_false_iff_ne]
          intro hkk
          rw [hkk, hk] at hm
          simp at hm
        simp [List.find?, hne]
    · rw [if_neg hm, ih]
      have hnone : jobLabels l.name = none := by
        cases h : jobLabels l.name with
        | none => rfl
        | some v => rw [h] at hm; simp at hm
      by_cases hk : k = l.name
      · subst hk
        rw [hnone]
        simp [mapInsert, List.find?]
      · have hmi : mapInsert jobLabels l.name l.value k = jobLabels k := by
          simp [mapInsert, hk]
        rw [hmi]
        cases hjk : jobLabels k with
        | some v => rfl
        | none =>
          have hne : (l.name == k) = false := by
            rw [beq_eq_false_iff_ne]
            exact fun hkk => hk hkk.symm
          simp [List.find?, hne]

theorem buildAnnots_cons (m : StrMap) (a : NameValue) (rest : List NameValue) :
    List.foldl (fun m x => mapInsert m x.name x.value) m (a :: rest) =
      List.foldl (fun m x => mapInsert m x.name x.value)
        (mapInsert m a.name a.value) rest := rfl

theorem foldl_insert_apply (m : StrMap) (custom : List NameValue) (k : String) :
    List.foldl (fun m x => mapInsert m x.name x.value) m custom k =
      match custom.reverse.find? (fun x => x.name == k) with
      | some b => some b.value
      | none => m k := by
  induction custom generalizing m with
  | nil => rfl
  | cons a rest ih =>
    rw [buildAnnots_cons, ih]
    rw [List.reverse_cons, List.find?_append]
    cases hr : rest.reverse.find? (fun x => x.name == k) with
    | some b => simp [Option.or]
    | none =>
      by_cases hk : a.name = k
      · simp [List.find?, hk, Option.or, mapInsert]
      · have hne : (a.name == k) = false := by
          rw [beq_eq_false_iff_ne]; exact hk
        have hk2 : ¬ k = a.name := fun h => hk h.symm
        simp [List.find?, hne, Option.or, mapInsert, hk2]

theorem buildAnnots_apply (custom : List NameValue) (k : String) :
    buildAnnots custom k =
      match custom.reverse.find? (fun x => x.name == k) with
      | some b => some b.value
      | none => none := by
  rw [buildAnnots, foldl_insert_apply]
  cases custom.reverse.find? (fun x => x.name == k) <;> rfl

/-- C4: `buildMetadata` keeps every platform-derived label unchanged,
drops any custom label whose key collides with a platform key, keeps every
non-colliding custom label (the first custom entry for that key wins), and
copies every custom annotation into the annotation map without collision
checking against the labels (the last custom entry for a key wins). -/
theorem buildMetadata_precedence (jobLabels : StrMap) (job : Job) :
    (∀ k v, jobLabels k = some v → (buildMetadata jobLabels job).1 k = some v) ∧
    (∀ l ∈ job.metadata.labels, ∀ v, jobLabels l.name = some v →
      (buildMetadata jobLabels job).1 l.name = some v) ∧
    (∀ l ∈ job.metadata.labels, jobLabels l.name = none →
      ∃ l2 ∈ job.metadata.labels, l2.name = l.name ∧
        (buildMetadata jobLabels job).1 l.name = some l2.value) ∧
    (∀ a ∈ job.metadata.annots,
      ∃ b ∈ job.metadata.annots, b.name = a.name ∧
        (buildMetadata jobLabels job).2 a.name = some b.value) := by
  have hplat : ∀ k v, jobLabels k = some v →
      (buildMetadata jobLabels job).1 k = some v := by
    intro k v hv
    show mergeLabels jobLabels job.metadata.labels k = some v
    rw [mergeLabels_apply, hv]
  refine ⟨hplat, fun l _ v hv => hplat l.name v hv, ?_, ?_⟩
  · intro l hl hnone
    have hfind : (job.metadata.labels.find? (fun x => x.name == l.name)).isSome := by
      rw [List.find?_isSome]
      exact ⟨l, hl, by simp⟩
    rcases Option.isSome_iff_exists.1 hfind with ⟨l2, hl2⟩
    refine ⟨l2, List.mem_of_find?_eq_some hl2, ?_, ?_⟩
    · have := List.find?_some hl2
      simpa using this
    · show mergeLabels jobLabels job.metadata.labels l.name = some l2.value
      rw [mergeLabels_apply, hnone, hl2]
      rfl
  · intro a ha
    have hfind : (job.metadata.annots.reverse.find?
        (fun x => x.name == a.name)).isSome := by
      rw [List.find?_isSome]
      exact ⟨a, List.mem_reverse.2 ha, by simp⟩
    rcases Option.isSome_iff_exists.1 hfind with ⟨b, hb⟩
    refine ⟨b, List.mem_reverse.1 (List.mem_of_find?_eq_some hb), ?_, ?_⟩
    · have := List.find?_some hb
      simpa using this
    · show buildAnnots job.metadata.annots a.name = some b.value
      rw [buildAnnots_apply, hb]

/-- Witness for C4 on a concrete platform label map and job: the platform
key "tsuru.io/job-name" survives a colliding custom label, the custom
label "team" gets through, and the custom annotation "note" is copied. -/
theorem buildMetadata_precedence_witness :
    (buildMetadata
        (mapInsert mapEmpty "tsuru.io/job-name" "mailer")
        { name := "mailer", pool := "p1",
          metadata :=
            { labels := [{ name := "tsuru.io/job-name", value := "evil" },
                         { name := "team", value := "core" }],
              annots := [{ name := "note", value := "hi" }] },
          spec := jWit.spec }).1 "tsuru.io/job-name" = some "mailer" ∧
    (∃ l2 ∈ [({ name := "tsuru.io/job-name", value := "evil" } : NameValue),
             { name := "team", value := "core" }],
      l2.name = "team" ∧
        (buildMetadata
            (mapInsert mapEmpty "tsuru.io/job-name" "mailer")
            { name := "mailer", pool := "p1",
              metadata :=
                { labels := [{ name := "tsuru.io/job-name", value := "evil" },
                             { name := "team", value := "core" }],
                  annots := [{ name := "note", value := "hi" }] },
              spec := jWit.spec }).1 "team" = some l2.value) ∧
    (∃ b ∈ [({ name := "note", value := "hi" } : NameValue)],
      b.name = "note" ∧
        (buildMetadata
            (mapInsert mapEmpty "tsuru.io/job-name" "mailer")
            { name := "mailer", pool := "p1",
              metadata :=
                { labels := [{ name := "tsuru.io/job-name", value := "evil" },
                             { name := "team", value := "core" }],
                  annots := [{ name := "note", value := "hi" }] },
              spec := jWit.spec }).2 "note" = some b.value) := by
  have h := buildMetadata_precedence
    (mapInsert mapEmpty "tsuru.io/job-name" "mailer")
    { name := "mailer", pool := "p1",
      metadata :=
        { labels := [{ name := "tsuru.io/job-name", value := "evil" },
                     { name := "team", value := "core" }],
          annots := [{ name := "note", value := "hi" }] },
      spec := jWit.spec }
  refine ⟨h.1 "tsuru.io/job-name" "mailer" (by decide), ?_, ?_⟩
  · exact h.2.2.1 { name := "team", value := "core" } (by decide) (by decide)
  · exact h.2.2.2 { name := "note", value := "hi" } (by decide)

theorem jobsToJobUnits_ok_spec (podsFor : K8sJob → Except String (List Pod)) :
    ∀ (jobs : List K8sJob) (units : List JobUnit),
      jobsToJobUnits podsFor jobs = .ok units →
      units.length = jobs.length ∧
        ∀ p ∈ units.zip jobs, p.1.status = jobUnitStatus p.2.status := by
  intro jobs
  induction jobs with
  | nil =>
    intro units h
    rw [jobsToJobUnits, Except.ok.injEq] at h
    subst h
    simp
  | cons j rest ih =>
    intro units h
    rw [jobsToJobUnits] at h
    cases hp : podsFor j with
    | error e => rw [hp] at h; exact absurd h (by simp)
    | ok pods =>
      rw [hp] at h
      cases hr : jobsToJobUnits podsFor rest with
      | error e => rw [hr] at h; exact absurd h (by simp)
      | ok units' =>
        rw [hr, Except.ok.injEq] at h
        subst h
        obtain ⟨hlen, hzip⟩ := ih units' hr
        refine ⟨by simp [hlen], ?_⟩
        intro p hp
        rw [List.zip_cons_cons, List.mem_cons] at hp
        rcases hp with hp | hp
        · rw [hp]
        · exact hzip p hp

/-- C1: whenever `jobsToJobUnits` succeeds it yields one unit per listed
execution, each unit's status classified from the execution's counters
with strict precedence — Error if the failed count is positive, otherwise
Succeeded if the succeeded count is positive, otherwise Started — so an
execution with failed=1 and succeeded=1 reports Error. -/
theorem jobUnits_status_precedence (podsFor : K8sJob → Except String (List Pod))
    (jobs : List K8sJob) (units : List JobUnit)
    (h : jobsToJobUnits podsFor jobs = .ok units) :
    units.length = jobs.length ∧
    (∀ p ∈ units.zip jobs, p.1.status = jobUnitStatus p.2.status) ∧
    (∀ s : K8sJobStatus, jobUnitStatus s =
      if s.failed > 0 then .error
      else if s.succeeded > 0 then .succeeded
      else .started) ∧
    jobUnitStatus { failed := 1, succeeded := 1 } = .error ∧
    jobUnitStatus { failed := 0, succeeded := 1 } = .succeeded ∧
    jobUnitStatus { failed := 0, succeeded := 0 } = .started := by
  obtain ⟨hlen, hzip⟩ := jobsToJobUnits_ok_spec podsFor jobs units h
  exact ⟨hlen, hzip, fun s => rfl, rfl, rfl, rfl⟩

/-- Witness for C1 on a concrete listing: an execution with failed=1 and
succeeded=1 yields a unit with status Error. -/
theorem jobUnits_status_precedence_witness :
    jobsToJobUnits (fun _ => .ok [])
        [{ name := "e1", status := { failed := 1, succeeded := 1 },
           creationTimestamp := 0 }] =
      .ok [{ id := "e1", name := "e1", status := .error, restarts := 0,
             createdAt := 0 }] ∧
    ({ id := "e1", name := "e1", status := UnitStatus.error, restarts := 0,
       createdAt := 0 } : JobUnit).status =
      jobUnitStatus { failed := 1, succeeded := 1 } := by
  refine ⟨rfl, ?_⟩
  have h := jobUnits_status_precedence (fun _ => .ok [])
    [{ name := "e1", status := { failed := 1, succeeded := 1 },
       creationTimestamp := 0 }]
    [{ id := "e1", name := "e1", status := .error, restarts := 0,
       createdAt := 0 }] rfl
  exact h.2.1
    ({ id := "e1", name := "e1", status := .error, restarts := 0, createdAt := 0 },
     { name := "e1", status := { failed := 1, succeeded := 1 },
       creationTimestamp := 0 }) (by decide)

/-- C6 counterexample: a job whose resource-requirement resolution fails
still causes an orchestrator call — the service-account ensure runs before
spec compilation — so the trace of orchestrator calls is not empty even
though the compilation error is propagated. -/
theorem createJob_compile_error_calls :
    (createJob
        { clusterForPool := .ok ()
          ensureServiceAccount := none
          requirements := .error "no plan found"
          jobLabels := mapEmpty
          cronJobWrite := .ok "mailer" } jWit).1 = .error "no plan found" ∧
    (createJob
        { clusterForPool := .ok ()
          ensureServiceAccount := none
          requirements := .error "no plan found"
          jobLabels := mapEmpty
          cronJobWrite := .ok "mailer" } jWit).2 = [.ensureServiceAccount] ∧
    (createJob
        { clusterForPool := .ok ()
          ensureServiceAccount := none
          requirements := .error "no plan found"
          jobLabels := mapEmpty
          cronJobWrite := .ok "mailer" } jWit).2 ≠ [] := by
  refine ⟨rfl, rfl, by decide⟩

/-- C6 (amended): if resource-requirement resolution fails, `CreateJob`
and `UpdateJob` propagate the compilation error and never reach the
scheduled-job write — the cronjob create/update is absent from the trace —
though the service-account ensure call has already been made. -/
theorem createUpdate_no_cronjob_write_on_compile_error (env : LifecycleEnv)
    (job : Job) (e : String) (hc : env.clusterForPool = .ok ())
    (hsa : env.ensureServiceAccount = none)
    (hr : env.requirements = .error e) :
    (createJob env job).1 = .error e ∧
    (createJob env job).2 = [.ensureServiceAccount] ∧
    OrchCall.createCronJob ∉ (createJob env job).2 ∧
    (updateJob env job).1 = .error e ∧
    (updateJob env job).2 = [.ensureServiceAccount] ∧
    OrchCall.updateCronJob ∉ (updateJob env job).2 := by
  have hcj : createJob env job = (.error e, [.ensureServiceAccount]) := by
    rw [createJob, hc, hsa]
    simp [buildJobSpec, hr]
  have huj : updateJob env job = (.error e, [.ensureServiceAccount]) := by
    rw [updateJob, hc, hsa]
    simp [buildJobSpec, hr]
  rw [hcj, huj]
  refine ⟨rfl, rfl, by simp, rfl, rfl, by simp⟩

/-- Witness for the amended C6 at a concrete environment and job. -/
theorem createUpdate_no_cronjob_write_witness :
    (createJob
        { clusterForPool := .ok ()
          ensureServiceAccount := none
          requirements := .error "quota exceeded"
          jobLabels := mapEmpty
          cronJobWrite := .ok "mailer" } jWit).1 = .error "quota exceeded" ∧
    OrchCall.createCronJob ∉
      (createJob
          { clusterForPool := .ok ()
            ensureServiceAccount := none
            requirements := .error "quota exceeded"
            jobLabels := mapEmpty
            cronJobWrite := .ok "mailer" } jWit).2 := by
  have h := createUpdate_no_cronjob_write_on_compile_error
    { clusterForPool := .ok ()
      ensureServiceAccount := none
      requirements := .error "quota exceeded"
      jobLabels := mapEmpty
      cronJobWrite := .ok "mailer" } jWit "quota exceeded" rfl rfl rfl
  exact ⟨h.1, h.2.2.1⟩

end TsuruJob
